import Mathlib

/-!
# Verification of the PyFlyt flight-control core

Shallow embedding, over exact rationals, of the two source files of the
repository:

* `PyFlyt/core/drone.py` — the per-vehicle actuation pipeline (motor mixer
  `cmd2pwm`, first-order motor ODE `pwm2rpm`) and the flight-mode state
  machine (`set_mode`, the PID cascade bookkeeping, `reset`).
* `PyFlyt/pz_envs/fixedwing_envs/ma_fixedwing_base_env.py` — the multi-agent
  stepping loop (`__init__` validation, action-buffer dispatch in `step`,
  per-substep outcome accumulation, culling of finished agents).

Python floats are modelled as `ℚ`; numpy vectors as functions out of `Fin n`
or as `List ℚ` where the length itself is at issue; Python dicts as
association lists with insertion-order semantics.  The `PID` class is not
part of the given sources, so its state is modelled from the spec's contract
(§4.1): `reset()` zeroes the integral and previous-error state.
-/

namespace PyFlyt

/-! ## Actuation model (`Drone.cmd2pwm`, `Drone.pwm2rpm`) -/

/-- The fixed ±1 quad-X mixing matrix `Drone.motor_map` (drone.py lines
91-98), one row per motor, columns = (roll, pitch, yaw, thrust) commands. -/
def motor_map : Fin 4 → Fin 4 → ℚ :=
  ![![1, -1, 1, 1],
    ![-1, 1, 1, 1],
    ![1, 1, -1, 1],
    ![-1, -1, -1, 1]]

/-- `np.matmul(self.motor_map, cmd)` — row `i` of the mixed, pre-saturation
pulse-width vector (drone.py line 203). -/
def mixPWM (cmd : Fin 4 → ℚ) : Fin 4 → ℚ := fun i =>
  motor_map i 0 * cmd 0 + motor_map i 1 * cmd 1 +
    motor_map i 2 * cmd 2 + motor_map i 3 * cmd 3

/-- `np.max` over a 4-vector. -/
def vmax4 (p : Fin 4 → ℚ) : ℚ := max (max (p 0) (p 1)) (max (p 2) (p 3))

/-- `np.min` over a 4-vector. -/
def vmin4 (p : Fin 4 → ℚ) : ℚ := min (min (p 0) (p 1)) (min (p 2) (p 3))

/-- The elementwise floor-shift applied by the second saturation branch:
`pwm += (1.0 - pwm) / (1.0 - low) * (0.05 - low)` (drone.py line 209),
as a scalar map applied to one channel. -/
def floorShiftFn (low x : ℚ) : ℚ := x + (1 - x) / (1 - low) * (1 / 20 - low)

/-- The floor-shift branch applied to the whole vector. -/
def floorShift (low : ℚ) (p : Fin 4 → ℚ) : Fin 4 → ℚ := fun i =>
  floorShiftFn low (p i)

/-- First saturation branch of `cmd2pwm`:
`if (high := np.max(pwm)) > 1.0: pwm /= high` (drone.py lines 206-207). -/
def scaleHigh (p : Fin 4 → ℚ) : Fin 4 → ℚ :=
  if 1 < vmax4 p then (fun i => p i / vmax4 p) else p

/-- Second saturation branch of `cmd2pwm`:
`if (low := np.min(pwm)) < 0.05: pwm += (1.0 - pwm) / (1.0 - low) * (0.05 - low)`
(drone.py lines 208-209), with `low` read from the possibly rescaled vector. -/
def floorFix (p : Fin 4 → ℚ) : Fin 4 → ℚ :=
  if vmin4 p < 1 / 20 then floorShift (vmin4 p) p else p

/-- `Drone.cmd2pwm` (drone.py lines 201-211): mix the 4-DoF command through
the motor map, scale down uniformly if the maximum exceeds 1.0, then if the
minimum is below 0.05 apply the affine floor shift. -/
def cmd2pwm (cmd : Fin 4 → ℚ) : Fin 4 → ℚ :=
  floorFix (scaleHigh (mixPWM cmd))

/-- `self.physics_hz = 1.0 / physics_hz` with the required
`physics_hz == 240.0` (drone.py lines 30-37). -/
def physics_dt : ℚ := 1 / 240

/-- `self.motor_tau = 0.01` (drone.py line 89). -/
def motor_tau : ℚ := 1 / 100

/-- One tick of `Drone.pwm2rpm` (drone.py lines 195-199) on a single motor
channel: `rpm += (physics_hz / motor_tau) * (max_rpm * pwm - rpm)`.  The
numpy update is elementwise, so the scalar form captures each channel. -/
def pwm2rpmStep (max_rpm pwm rpm : ℚ) : ℚ :=
  rpm + physics_dt / motor_tau * (max_rpm * pwm - rpm)

/-! ### Helper lemmas about 4-vector min/max -/

lemma vmin4_le (p : Fin 4 → ℚ) (i : Fin 4) : vmin4 p ≤ p i := by
  have h0 : vmin4 p ≤ p 0 := by
    unfold vmin4; exact le_trans (min_le_left _ _) (min_le_left _ _)
  have h1 : vmin4 p ≤ p 1 := by
    unfold vmin4; exact le_trans (min_le_left _ _) (min_le_right _ _)
  have h2 : vmin4 p ≤ p 2 := by
    unfold vmin4; exact le_trans (min_le_right _ _) (min_le_left _ _)
  have h3 : vmin4 p ≤ p 3 := by
    unfold vmin4; exact le_trans (min_le_right _ _) (min_le_right _ _)
  fin_cases i <;> assumption

lemma le_vmax4 (p : Fin 4 → ℚ) (i : Fin 4) : p i ≤ vmax4 p := by
  have h0 : p 0 ≤ vmax4 p := by
    unfold vmax4; exact le_trans (le_max_left _ _) (le_max_left _ _)
  have h1 : p 1 ≤ vmax4 p := by
    unfold vmax4; exact le_trans (le_max_right _ _) (le_max_left _ _)
  have h2 : p 2 ≤ vmax4 p := by
    unfold vmax4; exact le_trans (le_max_left _ _) (le_max_right _ _)
  have h3 : p 3 ≤ vmax4 p := by
    unfold vmax4; exact le_trans (le_max_right _ _) (le_max_right _ _)
  fin_cases i <;> assumption

lemma le_vmin4 {p : Fin 4 → ℚ} {c : ℚ} (h : ∀ i, c ≤ p i) : c ≤ vmin4 p := by
  unfold vmin4; exact le_min (le_min (h 0) (h 1)) (le_min (h 2) (h 3))

lemma vmax4_le {p : Fin 4 → ℚ} {c : ℚ} (h : ∀ i, p i ≤ c) : vmax4 p ≤ c := by
  unfold vmax4; exact max_le (max_le (h 0) (h 1)) (max_le (h 2) (h 3))

lemma vmax4_mem (p : Fin 4 → ℚ) : ∃ i, vmax4 p = p i := by
  rcases max_cases (max (p 0) (p 1)) (max (p 2) (p 3)) with ⟨h, _⟩ | ⟨h, _⟩ <;>
    [rcases max_cases (p 0) (p 1) with ⟨h', _⟩ | ⟨h', _⟩;
     rcases max_cases (p 2) (p 3) with ⟨h', _⟩ | ⟨h', _⟩] <;>
    exact ⟨_, by rw [vmax4, h, h']⟩

/-- The scalar floor-shift map is strictly increasing whenever `low < 1/20`. -/
lemma floorShiftFn_strictMono {low : ℚ} (h : low < 1 / 20) :
    StrictMono (floorShiftFn low) := by
  intro x y hxy
  have hd : 0 < 1 - low := by linarith
  have hdiff : floorShiftFn low y - floorShiftFn low x =
      (y - x) * ((19 / 20) / (1 - low)) := by
    unfold floorShiftFn
    field_simp
    ring
  have hpos : 0 < (y - x) * ((19 / 20 : ℚ) / (1 - low)) :=
    mul_pos (by linarith) (div_pos (by norm_num) hd)
  linarith

/-- The scalar floor-shift map has fixed point 1. -/
lemma floorShiftFn_one (low : ℚ) : floorShiftFn low 1 = 1 := by
  simp [floorShiftFn]

/-- The scalar floor-shift map sends `low` itself to exactly 0.05. -/
lemma floorShiftFn_low {low : ℚ} (h : low < 1 / 20) :
    floorShiftFn low low = 1 / 20 := by
  have hd : (1 : ℚ) - low ≠ 0 := by intro h0; rw [sub_eq_zero] at h0; linarith [h0]
  field_simp [floorShiftFn]
  ring

lemma floorShiftFn_bounds {low x : ℚ} (h2 : low < 1 / 20)
    (h3 : low ≤ x) (h4 : x ≤ 1) :
    1 / 20 ≤ floorShiftFn low x ∧ floorShiftFn low x ≤ 1 := by
  constructor
  · calc 1 / 20 = floorShiftFn low low := (floorShiftFn_low h2).symm
    _ ≤ floorShiftFn low x := (floorShiftFn_strictMono h2).monotone h3
  · calc floorShiftFn low x ≤ floorShiftFn low 1 :=
      (floorShiftFn_strictMono h2).monotone h4
    _ = 1 := floorShiftFn_one low

/-- After the high-scale branch every channel is at most 1, provided the
vector's maximum was at most 1 or got divided off. -/
lemma scaleHigh_le_one (p : Fin 4 → ℚ) (i : Fin 4) : scaleHigh p i ≤ 1 := by
  unfold scaleHigh
  by_cases h : 1 < vmax4 p
  · rw [if_pos h]
    exact (div_le_one (lt_trans one_pos h)).mpr (le_vmax4 p i)
  · rw [if_neg h]
    exact le_trans (le_vmax4 p i) (not_lt.mp h)

/-- The high-scale branch preserves nonnegativity of the minimum. -/
lemma scaleHigh_nonneg {p : Fin 4 → ℚ} (h₀ : 0 ≤ vmin4 p) (i : Fin 4) :
    0 ≤ scaleHigh p i := by
  have hp : 0 ≤ p i := le_trans h₀ (vmin4_le p i)
  unfold scaleHigh
  by_cases h : 1 < vmax4 p
  · rw [if_pos h]
    exact div_nonneg hp (le_of_lt (lt_trans one_pos h))
  · rw [if_neg h]
    exact hp

/-- After the floor-fix branch every channel lies in `[0.05, 1]`, as soon as
every incoming channel is at most 1. -/
lemma floorFix_bounds {p : Fin 4 → ℚ} (h1 : ∀ i, p i ≤ 1) (i : Fin 4) :
    1 / 20 ≤ floorFix p i ∧ floorFix p i ≤ 1 := by
  unfold floorFix
  by_cases h : vmin4 p < 1 / 20
  · rw [if_pos h]
    exact floorShiftFn_bounds h (vmin4_le p i) (h1 i)
  · rw [if_neg h]
    exact ⟨le_trans (not_lt.mp h) (vmin4_le p i), h1 i⟩

/-- C1: for every 4-dimensional command whose mixed pre-saturation
pulse-width vector has non-negative minimum and positive maximum, every
element of `cmd2pwm cmd` lies in `[0.05, 1.0]`; and the all-zero command
yields the well-defined vector of all `0.05`s — the divisor `1 - low`
of the saturation handling is nonzero there, so no division by zero
occurs. -/
theorem cmd2pwm_in_band (cmd : Fin 4 → ℚ)
    (h₀ : 0 ≤ vmin4 (mixPWM cmd)) (h₁ : 0 < vmax4 (mixPWM cmd)) :
    (∀ i, 1 / 20 ≤ cmd2pwm cmd i ∧ cmd2pwm cmd i ≤ 1) ∧
      cmd2pwm (fun _ => 0) = (fun _ => 1 / 20) ∧
      (1 : ℚ) - vmin4 (scaleHigh (mixPWM (fun _ => 0))) ≠ 0 := by
  have hmix : mixPWM (fun _ => 0) = (fun _ : Fin 4 => (0 : ℚ)) := by
    funext j
    simp [mixPWM]
  have hmax0 : vmax4 (fun _ : Fin 4 => (0 : ℚ)) = 0 := by norm_num [vmax4]
  have hmin0 : vmin4 (fun _ : Fin 4 => (0 : ℚ)) = 0 := by norm_num [vmin4]
  have hsc : scaleHigh (fun _ : Fin 4 => (0 : ℚ)) = (fun _ => 0) := by
    unfold scaleHigh
    rw [hmax0, if_neg (by norm_num)]
  refine ⟨fun i => floorFix_bounds (scaleHigh_le_one _) i, ?_, ?_⟩
  · funext i
    rw [cmd2pwm, hmix, hsc]
    unfold floorFix
    rw [hmin0, if_pos (by norm_num)]
    unfold floorShift floorShiftFn
    norm_num
  · rw [hmix, hsc, hmin0]
    norm_num

/-- C1 witness: the concrete command `(0, 0, 0, 1)` mixes to the all-ones
pulse-width vector, whose minimum is 0 and maximum 1, and the resulting
first pulse-width lies in `[0.05, 1]`. -/
theorem cmd2pwm_in_band_witness :
    1 / 20 ≤ cmd2pwm ![0, 0, 0, 1] 0 ∧ cmd2pwm ![0, 0, 0, 1] 0 ≤ 1 :=
  (cmd2pwm_in_band ![0, 0, 0, 1]
    (by norm_num [vmin4, mixPWM, motor_map, Matrix.cons_val_zero,
      Matrix.cons_val_one, Matrix.cons_val_two, Matrix.cons_val_three,
      Matrix.head_cons, Matrix.vecHead, Matrix.vecTail])
    (by norm_num [vmax4, mixPWM, motor_map, Matrix.cons_val_zero,
      Matrix.cons_val_one, Matrix.cons_val_two, Matrix.cons_val_three,
      Matrix.head_cons, Matrix.vecHead, Matrix.vecTail])).1 0

/-- C10: on every vector reaching the floor-shift branch (minimum strictly
below 0.05) with all elements at most 1, the applied elementwise map
`x ↦ x + (1 - x) / (1 - low) * (0.05 - low)` is strictly increasing with
fixed point 1, the shifted vector's minimum is exactly 0.05, and no element
exceeds 1 — the unchecked rescue step never pushes a channel back above 1. -/
theorem floorShift_rescue_safe (p : Fin 4 → ℚ)
    (h1 : vmin4 p < 1 / 20) (h2 : ∀ i, p i ≤ 1) :
    StrictMono (floorShiftFn (vmin4 p)) ∧
      floorShiftFn (vmin4 p) 1 = 1 ∧
      vmin4 (floorShift (vmin4 p) p) = 1 / 20 ∧
      ∀ i, floorShift (vmin4 p) p i ≤ 1 := by
  have hmono : Monotone (floorShiftFn (vmin4 p)) :=
    (floorShiftFn_strictMono h1).monotone
  have key : ∀ a b : ℚ, min (floorShiftFn (vmin4 p) a) (floorShiftFn (vmin4 p) b) =
      floorShiftFn (vmin4 p) (min a b) := fun a b => (hmono.map_min).symm
  refine ⟨floorShiftFn_strictMono h1, floorShiftFn_one _, ?_, fun i => ?_⟩
  · calc vmin4 (floorShift (vmin4 p) p)
        = min (min (floorShiftFn (vmin4 p) (p 0)) (floorShiftFn (vmin4 p) (p 1)))
            (min (floorShiftFn (vmin4 p) (p 2)) (floorShiftFn (vmin4 p) (p 3))) := rfl
    _ = floorShiftFn (vmin4 p) (vmin4 p) := by rw [key, key, key]; rfl
    _ = 1 / 20 := floorShiftFn_low h1
  · calc floorShift (vmin4 p) p i = floorShiftFn (vmin4 p) (p i) := rfl
    _ ≤ floorShiftFn (vmin4 p) 1 := hmono (h2 i)
    _ = 1 := floorShiftFn_one _

/-- C10 witness: the all-zero pulse-width vector reaches the floor-shift
branch, and its shifted minimum is exactly 0.05. -/
theorem floorShift_rescue_safe_witness :
    vmin4 (floorShift (vmin4 (fun _ => 0)) (fun _ => 0)) = 1 / 20 :=
  (floorShift_rescue_safe (fun _ => 0) (by norm_num [vmin4])
    (fun i => by norm_num)).2.2.1

/-- C6: the motor ODE update coefficient `physics_dt / motor_tau` is at most
1 (it equals 5/12 for the 1/240 s physics timestep and 0.01 s time
constant), and for a constant pulse-width the per-tick update of `pwm2rpm`
moves each motor speed monotonically toward `max_rpm * pwm` without ever
overshooting: from below it increases but stays at most the target, from
above it decreases but stays at least the target. -/
theorem pwm2rpm_monotone_no_overshoot :
    physics_dt / motor_tau ≤ 1 ∧
      ∀ max_rpm pwm rpm : ℚ,
        (rpm ≤ max_rpm * pwm →
          rpm ≤ pwm2rpmStep max_rpm pwm rpm ∧
            pwm2rpmStep max_rpm pwm rpm ≤ max_rpm * pwm) ∧
        (max_rpm * pwm ≤ rpm →
          pwm2rpmStep max_rpm pwm rpm ≤ rpm ∧
            max_rpm * pwm ≤ pwm2rpmStep max_rpm pwm rpm) := by
  refine ⟨by norm_num [physics_dt, motor_tau], fun m w r => ?_⟩
  have hc : physics_dt / motor_tau = 5 / 12 := by
    norm_num [physics_dt, motor_tau]
  unfold pwm2rpmStep
  rw [hc]
  constructor <;> intro h <;> constructor <;> linarith

/-- C6 witness: at maximum speed 12, pulse-width 1 and motor speed 0 the
updated speed is still between the old speed and the target `12 * 1`. -/
theorem pwm2rpm_monotone_no_overshoot_witness :
    (0 : ℚ) ≤ pwm2rpmStep 12 1 0 ∧ pwm2rpmStep 12 1 0 ≤ 12 * 1 :=
  (pwm2rpm_monotone_no_overshoot.2 12 1 0).1 (by norm_num)

/-! ## Flight-mode state machine (`Drone.set_mode`, `Drone.reset`)

The vehicle state matrix rows are, per `Drone.update_state` (drone.py line
226): row 0 = angular velocity, row 1 = angular position (Euler), row 2 =
linear velocity, row 3 = linear position; so `state[-1, :2]` is the world
x/y position, `state[1, -1]` the yaw, and `state[-1, -1]` the height. -/

/-- Tags for the eleven fixed gain/limit parameter sets a PID instance can
be constructed with (drone.py lines 100-137); `angPos2` is the two-axis
slice `Kp_ang_pos[:2]` used by modes 4-6. -/
inductive Gains where
  | angVel
  | angPos
  | angPos2
  | linVel
  | linPos
  | zVel
  | zPos
  deriving DecidableEq, Repr

/-- Modelled from the spec: the `PID` class (`PyFlyt.core.PID`) is imported
by drone.py but its source file is not part of the given sources.  Per §3
and §4.1 a PID instance holds gains, an output limit, a fixed timestep and
internal integrator/previous-error state; the gains/limit/timestep payload
is abstracted to the tag of the parameter set it was constructed with. -/
structure PID where
  gains : Gains
  integral : ℚ
  prevError : ℚ
  deriving DecidableEq, Repr

/-- Modelled from the spec (§4.1): `PID.reset()` zeroes the integral and
previous-error state. -/
def pidReset (c : PID) : PID := { c with integral := 0, prevError := 0 }

/-- A `PID(...)` construction on mode entry (drone.py lines 264-343).  The
constructed controller's internal state before the explicit `reset()` loop
is irrelevant to every claim (set_mode resets each cascade entry right
after); it is recorded as zero. -/
def mkPID (g : Gains) : PID := ⟨g, 0, 0⟩

/-- The control-relevant mutable fields of `Drone`: flight mode tag, the
4×3 state matrix, the stored setpoint (a Python `np.array` of whatever
length `set_mode` built, hence a `List ℚ`), the mode cascade `self.PIDs`
and the height cascade `self.z_PIDs`. -/
structure DroneCtrl where
  mode : ℤ
  state : Fin 4 → Fin 3 → ℚ
  setpoint : List ℚ
  PIDs : List PID
  zPIDs : List PID

/-- The setpoint preset of `Drone.set_mode` (drone.py lines 248-262):
mode 0 → `[0,0,0,-1]`; modes 1/5/6 → zeros; mode 7 →
`[*state[-1,:2], state[1,-1]]` (three components!); everything else →
zeros with the last component holding the current height. -/
def modeSetpoint (state : Fin 4 → Fin 3 → ℚ) (mode : ℤ) : List ℚ :=
  if mode = 0 then [0, 0, 0, -1]
  else if mode = 1 ∨ mode = 5 ∨ mode = 6 then [0, 0, 0, 0]
  else if mode = 7 then [state 3 0, state 3 1, state 1 2]
  else [0, 0, 0, state 3 2]

/-- The cascade instantiation of `Drone.set_mode` (drone.py lines 264-343):
modes 0/2 get a rate controller, 1/3 rate+attitude, 4/5/6
rate+attitude(2-axis)+velocity, 7 the full four-stage cascade; any other
mode matches no branch and `self.PIDs` is left as it was. -/
def modePIDs (old : List PID) (mode : ℤ) : List PID :=
  if mode = 0 ∨ mode = 2 then [mkPID .angVel]
  else if mode = 1 ∨ mode = 3 then [mkPID .angVel, mkPID .angPos]
  else if mode = 4 ∨ mode = 5 ∨ mode = 6 then
    [mkPID .angVel, mkPID .angPos2, mkPID .linVel]
  else if mode = 7 then
    [mkPID .angVel, mkPID .angPos, mkPID .linVel, mkPID .linPos]
  else old

/-- `Drone.set_mode` (drone.py lines 228-346): preset the setpoint from the
current state, store the mode tag, rebuild the mode cascade, then run
`controller.reset()` over every entry of `self.PIDs`.  The height cascade
`self.z_PIDs` is not touched. -/
def set_mode (d : DroneCtrl) (mode : ℤ) : DroneCtrl :=
  { d with
    mode := mode
    setpoint := modeSetpoint d.state mode
    PIDs := (modePIDs d.PIDs mode).map pidReset }

/-- `Drone.reset` (drone.py lines 153-158): `set_mode(0)` followed by
zeroing state, setpoint (4 zeros), rpm and pwm. -/
def droneReset (d : DroneCtrl) : DroneCtrl :=
  { set_mode d 0 with
    state := fun _ _ => 0
    setpoint := [0, 0, 0, 0] }

/-- The controllers `Drone.update_control` (drone.py lines 348-399) steps in
each mode, in stepping order: the mode-cascade entries it indexes, followed
by the height-cascade entries.  Modes outside the branches step nothing. -/
def steppedPIDs (d : DroneCtrl) : List PID :=
  (if d.mode = 0 ∨ d.mode = 2 then [d.PIDs.getD 0 (mkPID .angVel)]
   else if d.mode = 1 ∨ d.mode = 3 then
     [d.PIDs.getD 1 (mkPID .angVel), d.PIDs.getD 0 (mkPID .angVel)]
   else if d.mode = 4 ∨ d.mode = 5 ∨ d.mode = 6 then
     [d.PIDs.getD 2 (mkPID .angVel), d.PIDs.getD 1 (mkPID .angVel),
       d.PIDs.getD 0 (mkPID .angVel)]
   else if d.mode = 7 then
     [d.PIDs.getD 3 (mkPID .angVel), d.PIDs.getD 2 (mkPID .angVel),
       d.PIDs.getD 1 (mkPID .angVel), d.PIDs.getD 0 (mkPID .angVel)]
   else []) ++
  (if d.mode = 0 then []
   else if d.mode = 1 ∨ d.mode = 5 ∨ d.mode = 6 then
     [d.zPIDs.getD 0 (mkPID .zVel)]
   else if d.mode = 2 ∨ d.mode = 3 ∨ d.mode = 4 ∨ d.mode = 7 then
     [d.zPIDs.getD 1 (mkPID .zPos), d.zPIDs.getD 0 (mkPID .zVel)]
   else [])

/-- A vehicle at world position (2, 3), height 1, yaw 2/5, as in the spec's
mode-7 example. -/
def exState : Fin 4 → Fin 3 → ℚ :=
  ![![0, 0, 0], ![0, 0, 2 / 5], ![0, 0, 0], ![2, 3, 1]]

/-- A concrete vehicle in mode 0 whose height-cascade velocity controller
carries stale integrator state 5 and previous error 7. -/
def staleDrone : DroneCtrl :=
  { mode := 0
    state := exState
    setpoint := [0, 0, 0, 0]
    PIDs := [mkPID .angVel]
    zPIDs := [⟨.zVel, 5, 7⟩, ⟨.zPos, 0, 0⟩] }

/-- C4: immediately after `set_mode(m)` the setpoint is the per-mode default
of the §4.3 table — mode 0 gives `(0,0,0,-1)`, modes 1/5/6 the zero vector,
modes 2/3/4 zeros with last component the current height, and mode 7 the
current world x/y and yaw; in particular at world position (2,3) with yaw
2/5 mode 7 yields `(2, 3, 2/5)`. -/
theorem set_mode_setpoint_table (d : DroneCtrl) :
    (set_mode d 0).setpoint = [0, 0, 0, -1] ∧
      (set_mode d 1).setpoint = [0, 0, 0, 0] ∧
      (set_mode d 5).setpoint = [0, 0, 0, 0] ∧
      (set_mode d 6).setpoint = [0, 0, 0, 0] ∧
      (set_mode d 2).setpoint = [0, 0, 0, d.state 3 2] ∧
      (set_mode d 3).setpoint = [0, 0, 0, d.state 3 2] ∧
      (set_mode d 4).setpoint = [0, 0, 0, d.state 3 2] ∧
      (set_mode d 7).setpoint = [d.state 3 0, d.state 3 1, d.state 1 2] ∧
      (set_mode { d with state := exState } 7).setpoint = [2, 3, 2 / 5] := by
  refine ⟨?_, ?_, ?_, ?_, ?_, ?_, ?_, ?_, ?_⟩ <;>
    norm_num [set_mode, modeSetpoint, exState, Matrix.cons_val_zero,
      Matrix.cons_val_one, Matrix.cons_val_two, Matrix.cons_val_three,
      Matrix.head_cons, Matrix.vecHead, Matrix.vecTail]

/-- C5 (code bug): `set_mode(7)` stores a 3-component setpoint — it drops
the height component even though the code's own mode table says
`7 - x, y, r, z` and `update_control` reads `setpoint[-1]` as the height
target — while `reset()` and every other mode store 4 components. -/
theorem set_mode7_setpoint_not_4vector :
    (set_mode staleDrone 7).setpoint.length = 3 ∧
      (droneReset staleDrone).setpoint.length = 4 ∧
      (set_mode staleDrone 0).setpoint.length = 4 ∧
      (set_mode staleDrone 3).setpoint.length = 4 := by
  refine ⟨?_, rfl, ?_, ?_⟩ <;> norm_num [set_mode, modeSetpoint, droneReset]

/-- C7 counterexample: after `set_mode(3)` on a vehicle whose height
cascade carries stale integrator state, one of the controllers that
`update_control` will step still has a nonzero integrator — the claim that
every stepped controller is fresh after any `set_mode` call is false. -/
theorem stepped_pid_stale_after_set_mode :
    ¬ ∀ c ∈ steppedPIDs (set_mode staleDrone 3),
        c.integral = 0 ∧ c.prevError = 0 := by
  intro h
  have hmem : (⟨.zVel, 5, 7⟩ : PID) ∈ steppedPIDs (set_mode staleDrone 3) := by
    norm_num [steppedPIDs, set_mode, modePIDs, staleDrone, mkPID, pidReset]
  have := (h _ hmem).1
  norm_num at this

/-- C7 (amended): `set_mode` constructs the mode cascade and resets every
entry of `self.PIDs`, so immediately afterwards every mode-cascade
controller has zeroed integrator and previous-error state; the height
cascade `self.z_PIDs`, constructed once in `__init__`, is left untouched by
`set_mode` and keeps whatever state it had. -/
theorem set_mode_resets_mode_cascade_only (d : DroneCtrl) (m : ℤ) :
    (∀ c ∈ (set_mode d m).PIDs, c.integral = 0 ∧ c.prevError = 0) ∧
      (set_mode d m).zPIDs = d.zPIDs := by
  refine ⟨fun c hc => ?_, rfl⟩
  simp only [set_mode, List.mem_map] at hc
  obtain ⟨c', _, rfl⟩ := hc
  exact ⟨rfl, rfl⟩

/-- C9 counterexample: `set_mode(8)` is accepted silently — it leaves the
vehicle with mode tag 8 while retaining the previous mode's cascade (merely
reset), contradicting the claim that an out-of-range mode is fatal. -/
theorem set_mode_accepts_invalid_mode :
    (set_mode staleDrone 8).mode = 8 ∧
      (set_mode staleDrone 8).PIDs = staleDrone.PIDs := by
  constructor
  · rfl
  · norm_num [set_mode, modePIDs, staleDrone, mkPID, pidReset]

/-- C9 (amended): for every mode outside {0,…,7} `set_mode` raises nothing:
it stores the out-of-range mode tag, falls into the default setpoint branch
(zeros with current height last), and keeps the previous cascade, only
running the reset loop over it. -/
theorem set_mode_invalid_mode_silent (d : DroneCtrl) (m : ℤ)
    (h : ¬(m = 0 ∨ m = 1 ∨ m = 2 ∨ m = 3 ∨ m = 4 ∨ m = 5 ∨ m = 6 ∨ m = 7)) :
    (set_mode d m).mode = m ∧
      (set_mode d m).PIDs = d.PIDs.map pidReset ∧
      (set_mode d m).setpoint = [0, 0, 0, d.state 3 2] := by
  push_neg at h
  obtain ⟨h0, h1, h2, h3, h4, h5, h6, h7⟩ := h
  refine ⟨rfl, ?_, ?_⟩
  · show (modePIDs d.PIDs m).map pidReset = d.PIDs.map pidReset
    unfold modePIDs
    rw [if_neg (by tauto), if_neg (by tauto), if_neg (by tauto),
      if_neg (by tauto)]
  · show modeSetpoint d.state m = [0, 0, 0, d.state 3 2]
    unfold modeSetpoint
    rw [if_neg (by tauto), if_neg (by tauto), if_neg (by tauto)]

/-- C9 amended witness: mode 8 on the concrete vehicle. -/
theorem set_mode_invalid_mode_silent_witness :
    (set_mode staleDrone 8).mode = 8 ∧
      (set_mode staleDrone 8).PIDs = staleDrone.PIDs.map pidReset ∧
      (set_mode staleDrone 8).setpoint = [0, 0, 0, staleDrone.state 3 2] :=
  set_mode_invalid_mode_silent staleDrone 8 (by decide)

/-! ## Multi-agent environment construction (`MAFixedwingBaseEnv.__init__`) -/

/-- The ways `__init__` can abort: a Python `ZeroDivisionError` escaping an
arithmetic expression, or an `AssertionError` carrying a message. -/
inductive InitError where
  | zeroDivision
  | assertionError (msg : String)
  deriving DecidableEq, Repr

/-- The constraint-describing message of the agent-rate assertion
(ma_fixedwing_base_env.py line 48, with the suggested-rate interpolations
elided). -/
def hzMsg : String := "agent_hz must be round denominator of 120"

/-- The constraint-describing message of the angle-representation assertion
(line 65). -/
def angleMsg : String := "angle_representation must be either euler or quaternion"

/-- The constraint-describing message of the three shape assertions
(lines 90-98). -/
def shapeMsg : String := "Expected start_pos to be of shape [num_agents, 3]"

/-- The validation performed by `MAFixedwingBaseEnv.__init__`
(ma_fixedwing_base_env.py lines 44-49, 57-66, 88-100), for the default
`render_mode=None` (whose check is skipped).  Shapes of the numpy arrays
`start_pos` / `start_orn` are carried as `List ℕ`.  Mirrors Python
arithmetic: `120 % 0` raises `ZeroDivisionError`; inside the failing-rate
branch the message interpolates `int(120 / int(120 / agent_hz))`, which
raises `ZeroDivisionError` whenever `int(120 / agent_hz) = 0`, i.e. for
every `agent_hz > 120`. -/
def maInitChecks (agent_hz : ℕ) (angle_representation : String)
    (startPosShape startOrnShape : List ℕ) : Except InitError Unit :=
  if agent_hz = 0 then .error .zeroDivision
  else if 120 % agent_hz ≠ 0 then
    if 120 / agent_hz = 0 then .error .zeroDivision
    else .error (.assertionError hzMsg)
  else if angle_representation = "euler" ∨ angle_representation = "quaternion" then
    if startPosShape.length ≠ 2 then .error (.assertionError shapeMsg)
    else if startPosShape.getLastD 0 ≠ 3 then .error (.assertionError shapeMsg)
    else if startPosShape ≠ startOrnShape then .error (.assertionError shapeMsg)
    else .ok ()
  else .error (.assertionError angleMsg)

/-- C8 counterexample: `agent_hz = 240` does not divide 120, yet
construction dies with a bare division-by-zero (raised while the assertion
message computes the suggested rates `int(120 / int(120 / 240))`), not with
an error describing the violated constraint. -/
theorem ma_init_hz240_zero_division :
    maInitChecks 240 ("euler") [1, 3] [1, 3] =
        Except.error InitError.zeroDivision ∧
      120 % 240 ≠ 0 := by
  exact ⟨rfl, by decide⟩

/-- C8 (amended): construction succeeds exactly when the agent rate divides
120, the angle representation is euler or quaternion, `start_pos` has shape
`[n, 3]` and `start_orn` the same shape; every violating configuration
aborts immediately, but a non-dividing `agent_hz` gets the
constraint-describing assertion only when `0 < agent_hz ≤ 120` — for
`agent_hz > 120` construction aborts with a `ZeroDivisionError` raised
while building the suggestion message. -/
theorem ma_init_checks_characterization (hz : ℕ) (rep : String)
    (ps os : List ℕ) :
    (maInitChecks hz rep ps os = .ok () ↔
      (120 % hz = 0 ∧ (rep = "euler" ∨ rep = "quaternion") ∧
        ps.length = 2 ∧ ps.getLastD 0 = 3 ∧ ps = os)) ∧
      (0 < hz → hz ≤ 120 → 120 % hz ≠ 0 →
        maInitChecks hz rep ps os = .error (.assertionError hzMsg)) ∧
      (120 < hz → maInitChecks hz rep ps os = .error .zeroDivision) := by
  refine ⟨?_, ?_, ?_⟩
  · unfold maInitChecks
    split_ifs with h1 h2 h3 h4 h5 h6 h7 <;> simp_all
  · intro hpos hle hmod
    have hdiv : 120 / hz ≠ 0 := by
      have := Nat.div_pos hle hpos
      omega
    unfold maInitChecks
    rw [if_neg (by omega), if_pos hmod, if_neg hdiv]
  · intro hgt
    have h0 : hz ≠ 0 := by omega
    have hmod : 120 % hz = 120 := Nat.mod_eq_of_lt hgt
    have hdiv : 120 / hz = 0 := Nat.div_eq_of_lt hgt
    unfold maInitChecks
    rw [if_neg h0, if_pos (by omega), if_pos hdiv]

/-- C8 amended witness: the default configuration (30 Hz, euler, one agent)
passes every check; 240 Hz aborts with the division-by-zero. -/
theorem ma_init_checks_characterization_witness :
    maInitChecks 30 ("euler") [1, 3] [1, 3] = .ok () ∧
      maInitChecks 240 ("quaternion") [1, 3] [1, 3] =
        .error .zeroDivision :=
  ⟨(ma_init_checks_characterization 30 ("euler") [1, 3] [1, 3]).1.mpr
      ⟨by decide, Or.inl rfl, by decide, by decide, rfl⟩,
    (ma_init_checks_characterization 240 ("quaternion") [1, 3] [1, 3]).2.2
      (by decide)⟩

/-! ## Multi-agent action dispatch (`MAFixedwingBaseEnv.step`, lines 270-277) -/

/-- The dispatch phase of `step(actions)`: snapshot the current buffer as
`past_actions` (deepcopy), zero the whole current buffer
(`self.current_actions *= 0.0` — exact over ℚ), then write each submitted
agent's value into its fixed slot.  Agents are their buffer indices (the
`agent_name_mapping` is the fixed bijection `uav_i ↦ i`); the action
mapping is the list of its key/value pairs; `dim` is the action dimension
(4 or 6 depending on `assisted_flight`).  Returns (new current buffer,
past-actions snapshot). -/
def dispatchActions (n dim : ℕ) (current : Fin n → Fin dim → ℚ)
    (actions : List (Fin n × (Fin dim → ℚ))) :
    (Fin n → Fin dim → ℚ) × (Fin n → Fin dim → ℚ) :=
  let past := current
  let zeroed : Fin n → Fin dim → ℚ := fun _ _ => 0
  (actions.foldl (fun buf kv => Function.update buf kv.1 kv.2) zeroed, past)

lemma foldl_update_not_mem {α β : Type} [DecidableEq α] (f : α → β)
    (l : List (α × β)) (i : α) (h : i ∉ l.map Prod.fst) :
    l.foldl (fun buf kv => Function.update buf kv.1 kv.2) f i = f i := by
  induction l generalizing f with
  | nil => rfl
  | cons kv t ih =>
    simp only [List.map_cons, List.mem_cons, not_or] at h
    rw [List.foldl_cons, ih _ h.2, Function.update_noteq h.1]

lemma foldl_update_mem {α β : Type} [DecidableEq α] (f : α → β)
    (l : List (α × β)) (i : α) (v : β)
    (hnodup : (l.map Prod.fst).Nodup) (h : (i, v) ∈ l) :
    l.foldl (fun buf kv => Function.update buf kv.1 kv.2) f i = v := by
  induction l generalizing f with
  | nil => cases h
  | cons kv t ih =>
    simp only [List.map_cons, List.nodup_cons] at hnodup
    rcases List.mem_cons.mp h with heq | htail
    · subst heq
      rw [List.foldl_cons, foldl_update_not_mem _ _ _ hnodup.1,
        Function.update_same]
    · rw [List.foldl_cons]
      exact ih _ hnodup.2 htail

/-- C2 counterexample: with buffered actions `(5)` for agent 0 and `(7)`
for agent 1, submitting an action only for agent 0 leaves agent 1's slot at
0, not at its previous value 7 — omitted agents do not retain their
buffered action. -/
theorem dispatch_zeroes_omitted_agent :
    (dispatchActions 2 1 ![![5], ![7]] [(0, ![9])]).1 1 0 = 0 ∧
      (![![5], ![7]] : Fin 2 → Fin 1 → ℚ) 1 0 = 7 ∧ (0 : ℚ) ≠ 7 := by
  refine ⟨?_, rfl, by norm_num⟩
  show Function.update (fun _ _ => (0 : ℚ)) (0 : Fin 2) ![9] 1 0 = 0
  rw [Function.update_noteq (by decide)]

/-- C2 (amended): the dispatch phase first snapshots the whole pre-call
buffer as past actions, then zeroes every slot and writes each submitted
agent's value into its own slot only; an agent absent from the mapping
therefore ends with the zero action in its slot regardless of its previous
value. -/
theorem dispatch_buffer_semantics (n dim : ℕ)
    (current : Fin n → Fin dim → ℚ)
    (actions : List (Fin n × (Fin dim → ℚ)))
    (hnodup : (actions.map Prod.fst).Nodup) :
    (dispatchActions n dim current actions).2 = current ∧
      (∀ i v, (i, v) ∈ actions →
        (dispatchActions n dim current actions).1 i = v) ∧
      (∀ i, i ∉ actions.map Prod.fst →
        (dispatchActions n dim current actions).1 i = fun _ => 0) := by
  refine ⟨rfl, fun i v hiv => ?_, fun i hi => ?_⟩
  · exact foldl_update_mem _ _ _ _ hnodup hiv
  · exact foldl_update_not_mem _ _ _ hi

/-- C2 amended witness: the concrete two-agent dispatch with only agent 0
submitting. -/
theorem dispatch_buffer_semantics_witness :
    (dispatchActions 2 1 ![![5], ![7]] [(0, ![9])]).2 = ![![5], ![7]] ∧
      (dispatchActions 2 1 ![![5], ![7]] [(0, ![9])]).1 0 = ![9] :=
  ⟨(dispatch_buffer_semantics 2 1 ![![5], ![7]] [(0, ![9])]
      (by decide)).1,
    (dispatch_buffer_semantics 2 1 ![![5], ![7]] [(0, ![9])]
      (by decide)).2.1 0 ![9] (List.mem_singleton.mpr rfl)⟩

/-! ## Multi-agent substep loop (`MAFixedwingBaseEnv.step`, lines 279-314)

Python dicts become association lists with Python's assignment semantics:
assigning to an existing key updates it in place, assigning to a new key
appends it.  Agents are their buffer indices.  The task hooks
`compute_term_trunc_reward_info_by_id` / `compute_observation_by_id` are
abstract in the base class (supplied by a concrete task and reading the
evolving simulator), so they are parameters that may depend on the substep
index and the agent; the info dictionaries' value type and the Python
`dict`-merge `\x7b**infos[ag], **info\x7d` are likewise parameters. -/

/-- Python dict assignment `d[k] = v` on an association list. -/
def dictSet {α : Type} (d : List (ℕ × α)) (k : ℕ) (v : α) : List (ℕ × α) :=
  if k ∈ d.map Prod.fst then
    d.map (fun kv => if kv.1 = k then (k, v) else kv)
  else d ++ [(k, v)]

/-- Python dict read `d[k]` with a default for absent keys. -/
def dictGetD {α : Type} (d : List (ℕ × α)) (k : ℕ) (dflt : α) : α :=
  match d.find? (fun kv => kv.1 == k) with
  | some kv => kv.2
  | none => dflt

/-- The five running dictionaries of one `step` call. -/
structure LoopDicts (Obs Info : Type) where
  observations : List (ℕ × Obs)
  rewards : List (ℕ × ℚ)
  terminations : List (ℕ × Bool)
  truncations : List (ℕ × Bool)
  infos : List (ℕ × Info)

/-- The per-agent body of the substep loop (lines 291-304): OR the
termination and truncation flags, add the reward, merge the info dict, and
recompute the observation. -/
def agentUpdate {Obs Info : Type} (merge : Info → Info → Info)
    (outcome : ℕ → ℕ → Bool × Bool × ℚ × Info) (obsHook : ℕ → ℕ → Obs)
    (emptyInfo : Info) (t : ℕ) (st : LoopDicts Obs Info) (ag : ℕ) :
    LoopDicts Obs Info :=
  let r := outcome t ag
  { observations := dictSet st.observations ag (obsHook t ag)
    rewards := dictSet st.rewards ag (dictGetD st.rewards ag 0 + r.2.2.1)
    terminations := dictSet st.terminations ag
      (dictGetD st.terminations ag false || r.1)
    truncations := dictSet st.truncations ag
      (dictGetD st.truncations ag false || r.2.1)
    infos := dictSet st.infos ag
      (merge (dictGetD st.infos ag emptyInfo) r.2.2.2) }

/-- The result of one `step` call: the five returned mappings, the culled
live-agent list for the next round, and the incremented step counter. -/
structure StepOut (Obs Info : Type) where
  observations : List (ℕ × Obs)
  rewards : List (ℕ × ℚ)
  terminations : List (ℕ × Bool)
  truncations : List (ℕ × Bool)
  infos : List (ℕ × Info)
  agents : List ℕ
  stepCount : ℕ

/-- The dictionaries as initialised before the substep loop (lines
280-284): comprehensions over the live agents, observations empty. -/
def initDicts {Obs Info : Type} (emptyInfo : Info) (agents : List ℕ) :
    LoopDicts Obs Info :=
  { observations := []
    rewards := agents.map (fun k => (k, 0))
    terminations := agents.map (fun k => (k, false))
    truncations := agents.map (fun k => (k, false))
    infos := agents.map (fun k => (k, emptyInfo)) }

/-- One substep (lines 287-304): advance the simulation (absorbed into the
substep index the hooks see) and run the per-agent update over every live
agent. -/
def substepFold {Obs Info : Type} (merge : Info → Info → Info)
    (outcome : ℕ → ℕ → Bool × Bool × ℚ × Info) (obsHook : ℕ → ℕ → Obs)
    (emptyInfo : Info) (agents : List ℕ) (st : LoopDicts Obs Info) (t : ℕ) :
    LoopDicts Obs Info :=
  agents.foldl (agentUpdate merge outcome obsHook emptyInfo t) st

/-- The dictionaries after the whole substep loop. -/
def finalDicts {Obs Info : Type} (merge : Info → Info → Info)
    (outcome : ℕ → ℕ → Bool × Bool × ℚ × Info) (obsHook : ℕ → ℕ → Obs)
    (emptyInfo : Info) (ratio : ℕ) (agents : List ℕ) : LoopDicts Obs Info :=
  (List.range ratio).foldl
    (substepFold merge outcome obsHook emptyInfo agents)
    (initDicts emptyInfo agents)

/-- The outcome-accumulation phase of `MAFixedwingBaseEnv.step` (lines
279-314): initialise the dictionaries, run `env_step_ratio` substeps, then
increment the step counter and cull every agent whose accumulated
termination or truncation flag is set; the returned mappings are the loop
dictionaries as they stand. -/
def maStep {Obs Info : Type} (merge : Info → Info → Info)
    (outcome : ℕ → ℕ → Bool × Bool × ℚ × Info) (obsHook : ℕ → ℕ → Obs)
    (emptyInfo : Info) (ratio : ℕ) (agents : List ℕ) (stepCount : ℕ) :
    StepOut Obs Info :=
  { observations := (finalDicts merge outcome obsHook emptyInfo ratio agents).observations
    rewards := (finalDicts merge outcome obsHook emptyInfo ratio agents).rewards
    terminations := (finalDicts merge outcome obsHook emptyInfo ratio agents).terminations
    truncations := (finalDicts merge outcome obsHook emptyInfo ratio agents).truncations
    infos := (finalDicts merge outcome obsHook emptyInfo ratio agents).infos
    agents := agents.filter (fun a =>
      !(dictGetD (finalDicts merge outcome obsHook emptyInfo ratio agents).terminations a false ||
        dictGetD (finalDicts merge outcome obsHook emptyInfo ratio agents).truncations a false))
    stepCount := stepCount + 1 }

/-- All five dictionaries have key list exactly `agents`. -/
def KeysEq {Obs Info : Type} (agents : List ℕ) (st : LoopDicts Obs Info) : Prop :=
  st.observations.map Prod.fst = agents ∧
    st.rewards.map Prod.fst = agents ∧
    st.terminations.map Prod.fst = agents ∧
    st.truncations.map Prod.fst = agents ∧
    st.infos.map Prod.fst = agents

/-! ### Key-set lemmas for the dictionaries -/

lemma dictSet_keys_mem {α : Type} {d : List (ℕ × α)} {k : ℕ} (v : α)
    (h : k ∈ d.map Prod.fst) :
    (dictSet d k v).map Prod.fst = d.map Prod.fst := by
  unfold dictSet
  rw [if_pos h, List.map_map]
  refine List.map_congr_left fun kv _ => ?_
  by_cases hk : kv.1 = k
  · simp [hk]
  · simp [hk]

lemma dictSet_keys_not_mem {α : Type} {d : List (ℕ × α)} {k : ℕ} (v : α)
    (h : k ∉ d.map Prod.fst) :
    (dictSet d k v).map Prod.fst = d.map Prod.fst ++ [k] := by
  unfold dictSet
  rw [if_neg h, List.map_append]
  rfl

/-- Folding dict assignments over keys already present leaves the key list
unchanged; the assigned value may depend on the accumulated dictionary. -/
lemma keys_foldl_dictSet_mem {α : Type}
    (val : List (ℕ × α) → ℕ → α) (l : List ℕ) (d : List (ℕ × α))
    (h : ∀ a ∈ l, a ∈ d.map Prod.fst) :
    (l.foldl (fun d a => dictSet d a (val d a)) d).map Prod.fst =
      d.map Prod.fst := by
  induction l generalizing d with
  | nil => rfl
  | cons a t ih =>
    rw [List.foldl_cons]
    have hk := dictSet_keys_mem (d := d) (val d a) (h a (List.mem_cons_self _ _))
    rw [ih _ fun b hb => hk ▸ h b (List.mem_cons_of_mem a hb), hk]

/-- Folding dict assignments over fresh, pairwise-distinct keys appends
them in order. -/
lemma keys_foldl_dictSet_fresh {α : Type}
    (val : List (ℕ × α) → ℕ → α) (l : List ℕ) (d : List (ℕ × α))
    (hnd : l.Nodup) (h : ∀ a ∈ l, a ∉ d.map Prod.fst) :
    (l.foldl (fun d a => dictSet d a (val d a)) d).map Prod.fst =
      d.map Prod.fst ++ l := by
  induction l generalizing d with
  | nil => simp
  | cons a t ih =>
    rw [List.nodup_cons] at hnd
    rw [List.foldl_cons]
    have hk := dictSet_keys_not_mem (d := d) (val d a) (h a (List.mem_cons_self _ _))
    have hfresh : ∀ b ∈ t, b ∉ (dictSet d a (val d a)).map Prod.fst := by
      intro b hb
      rw [hk, List.mem_append, List.mem_singleton]
      rintro (hbd | rfl)
      · exact h b (List.mem_cons_of_mem a hb) hbd
      · exact hnd.1 hb
    rw [ih _ hnd.2 hfresh, hk, List.append_assoc]
    rfl

/-! ### Projecting the agent fold onto each dictionary -/

section StepLemmas

variable {Obs Info : Type} (merge : Info → Info → Info)
variable (outcome : ℕ → ℕ → Bool × Bool × ℚ × Info) (obsHook : ℕ → ℕ → Obs)
variable (emptyInfo : Info)

lemma substepFold_observations (agents : List ℕ) (t : ℕ)
    (st : LoopDicts Obs Info) :
    (substepFold merge outcome obsHook emptyInfo agents st t).observations =
      agents.foldl (fun d a => dictSet d a (obsHook t a)) st.observations := by
  unfold substepFold
  induction agents generalizing st with
  | nil => rfl
  | cons a tl ih =>
    rw [List.foldl_cons, List.foldl_cons, ih]
    rfl

lemma substepFold_rewards (agents : List ℕ) (t : ℕ)
    (st : LoopDicts Obs Info) :
    (substepFold merge outcome obsHook emptyInfo agents st t).rewards =
      agents.foldl
        (fun d a => dictSet d a (dictGetD d a 0 + (outcome t a).2.2.1))
        st.rewards := by
  unfold substepFold
  induction agents generalizing st with
  | nil => rfl
  | cons a tl ih =>
    rw [List.foldl_cons, List.foldl_cons, ih]
    rfl

lemma substepFold_terminations (agents : List ℕ) (t : ℕ)
    (st : LoopDicts Obs Info) :
    (substepFold merge outcome obsHook emptyInfo agents st t).terminations =
      agents.foldl
        (fun d a => dictSet d a (dictGetD d a false || (outcome t a).1))
        st.terminations := by
  unfold substepFold
  induction agents generalizing st with
  | nil => rfl
  | cons a tl ih =>
    rw [List.foldl_cons, List.foldl_cons, ih]
    rfl

lemma substepFold_truncations (agents : List ℕ) (t : ℕ)
    (st : LoopDicts Obs Info) :
    (substepFold merge outcome obsHook emptyInfo agents st t).truncations =
      agents.foldl
        (fun d a => dictSet d a (dictGetD d a false || (outcome t a).2.1))
        st.truncations := by
  unfold substepFold
  induction agents generalizing st with
  | nil => rfl
  | cons a tl ih =>
    rw [List.foldl_cons, List.foldl_cons, ih]
    rfl

lemma substepFold_infos (agents : List ℕ) (t : ℕ)
    (st : LoopDicts Obs Info) :
    (substepFold merge outcome obsHook emptyInfo agents st t).infos =
      agents.foldl
        (fun d a => dictSet d a (merge (dictGetD d a emptyInfo) (outcome t a).2.2.2))
        st.infos := by
  unfold substepFold
  induction agents generalizing st with
  | nil => rfl
  | cons a tl ih =>
    rw [List.foldl_cons, List.foldl_cons, ih]
    rfl

/-- Mapping an agent list into key/value pairs gives exactly that key list. -/
lemma keys_map_pair {α : Type} (agents : List ℕ) (f : ℕ → α) :
    (agents.map (fun k => (k, f k))).map Prod.fst = agents := by
  rw [List.map_map]
  exact List.map_id'' (fun _ => rfl) agents

/-- One substep preserves "all five key lists equal the live agents". -/
lemma substepFold_preserves_keys {agents : List ℕ} {st : LoopDicts Obs Info}
    (t : ℕ) (h : KeysEq agents st) :
    KeysEq agents (substepFold merge outcome obsHook emptyInfo agents st t) := by
  obtain ⟨h1, h2, h3, h4, h5⟩ := h
  refine ⟨?_, ?_, ?_, ?_, ?_⟩
  · rw [substepFold_observations, keys_foldl_dictSet_mem _ _ _ fun a ha => h1 ▸ ha]
    exact h1
  · rw [substepFold_rewards, keys_foldl_dictSet_mem _ _ _ fun a ha => h2 ▸ ha]
    exact h2
  · rw [substepFold_terminations, keys_foldl_dictSet_mem _ _ _ fun a ha => h3 ▸ ha]
    exact h3
  · rw [substepFold_truncations, keys_foldl_dictSet_mem _ _ _ fun a ha => h4 ▸ ha]
    exact h4
  · rw [substepFold_infos, keys_foldl_dictSet_mem _ _ _ fun a ha => h5 ▸ ha]
    exact h5

/-- The first substep starting from the initial dictionaries fills the
observation dictionary with one entry per live agent (in order) and keeps
the other four key lists at the live-agent list. -/
lemma substepFold_init_keys {agents : List ℕ} (hnd : agents.Nodup) (t : ℕ) :
    KeysEq agents
      (substepFold merge outcome obsHook emptyInfo agents
        (initDicts emptyInfo agents) t) := by
  have hobs : (initDicts emptyInfo agents : LoopDicts Obs Info).observations = [] := rfl
  have hrew : (initDicts emptyInfo agents : LoopDicts Obs Info).rewards.map Prod.fst
      = agents := keys_map_pair agents _
  have hterm : (initDicts emptyInfo agents : LoopDicts Obs Info).terminations.map Prod.fst
      = agents := keys_map_pair agents _
  have htrunc : (initDicts emptyInfo agents : LoopDicts Obs Info).truncations.map Prod.fst
      = agents := keys_map_pair agents _
  have hinfo : (initDicts emptyInfo agents : LoopDicts Obs Info).infos.map Prod.fst
      = agents := keys_map_pair agents _
  refine ⟨?_, ?_, ?_, ?_, ?_⟩
  · rw [substepFold_observations, hobs,
      keys_foldl_dictSet_fresh _ _ _ hnd (by simp)]
    rfl
  · rw [substepFold_rewards, keys_foldl_dictSet_mem _ _ _ (fun a ha => by rw [hrew]; exact ha)]
    exact hrew
  · rw [substepFold_terminations,
      keys_foldl_dictSet_mem _ _ _ (fun a ha => by rw [hterm]; exact ha)]
    exact hterm
  · rw [substepFold_truncations,
      keys_foldl_dictSet_mem _ _ _ (fun a ha => by rw [htrunc]; exact ha)]
    exact htrunc
  · rw [substepFold_infos, keys_foldl_dictSet_mem _ _ _ (fun a ha => by rw [hinfo]; exact ha)]
    exact hinfo

/-- Invariants survive any fold. -/
lemma foldl_invariant {σ τ : Type} (Q : σ → Prop) (f : σ → τ → σ)
    (hf : ∀ s t, Q s → Q (f s t)) :
    ∀ (l : List τ) (s : σ), Q s → Q (l.foldl f s) := by
  intro l
  induction l with
  | nil => exact fun s hs => hs
  | cons a t ih => exact fun s hs => ih _ (hf s a hs)

end StepLemmas

/-- C3: for a call to step with a non-empty live-agent list (pairwise
distinct, as the fixed `uav_i` naming guarantees) and a substep ratio of at
least 1, each of the five returned mappings has key list exactly the agents
live at the start of the call — whatever the task hooks return, so in
particular for agents that terminate or truncate during the call — and the
live-agent list after the call is the filter of the pre-call live list
keeping exactly the agents whose accumulated termination and truncation
flags are both false; in particular it is a subset of the pre-call list
(the live set never grows). -/
theorem ma_step_key_sets {Obs Info : Type} (merge : Info → Info → Info)
    (outcome : ℕ → ℕ → Bool × Bool × ℚ × Info) (obsHook : ℕ → ℕ → Obs)
    (emptyInfo : Info) (ratio : ℕ) (agents : List ℕ) (sc : ℕ)
    (hne : agents ≠ []) (hr : 1 ≤ ratio) (hnd : agents.Nodup) :
    (maStep merge outcome obsHook emptyInfo ratio agents sc).observations.map
        Prod.fst = agents ∧
      (maStep merge outcome obsHook emptyInfo ratio agents sc).rewards.map
        Prod.fst = agents ∧
      (maStep merge outcome obsHook emptyInfo ratio agents sc).terminations.map
        Prod.fst = agents ∧
      (maStep merge outcome obsHook emptyInfo ratio agents sc).truncations.map
        Prod.fst = agents ∧
      (maStep merge outcome obsHook emptyInfo ratio agents sc).infos.map
        Prod.fst = agents ∧
      (maStep merge outcome obsHook emptyInfo ratio agents sc).agents =
        agents.filter (fun a =>
          !(dictGetD (maStep merge outcome obsHook emptyInfo ratio agents
              sc).terminations a false ||
            dictGetD (maStep merge outcome obsHook emptyInfo ratio agents
              sc).truncations a false)) ∧
      (maStep merge outcome obsHook emptyInfo ratio agents sc).agents ⊆
        agents := by
  obtain ⟨n, rfl⟩ : ∃ n, ratio = n + 1 := ⟨ratio - 1, by omega⟩
  have hfin : KeysEq agents
      (finalDicts merge outcome obsHook emptyInfo (n + 1) agents) := by
    unfold finalDicts
    rw [List.range_succ_eq_map, List.foldl_cons]
    exact foldl_invariant (KeysEq agents) _
      (fun s t hs =>
        substepFold_preserves_keys merge outcome obsHook emptyInfo t hs)
      _ _ (substepFold_init_keys merge outcome obsHook emptyInfo hnd 0)
  exact ⟨hfin.1, hfin.2.1, hfin.2.2.1, hfin.2.2.2.1, hfin.2.2.2.2, rfl,
    (List.filter_sublist _).subset⟩

/-- C3 witness: two live agents, ratio 1, constant hooks — every returned
mapping has key list `[0, 1]`. -/
theorem ma_step_key_sets_witness :
    (maStep (fun _ b => (b : ℚ)) (fun _ _ => (false, false, (0 : ℚ), (0 : ℚ)))
        (fun _ _ => (0 : ℚ)) 0 1 [0, 1] 0).observations.map Prod.fst =
      [0, 1] :=
  (ma_step_key_sets (fun _ b => (b : ℚ))
    (fun _ _ => (false, false, (0 : ℚ), (0 : ℚ))) (fun _ _ => (0 : ℚ)) 0 1
    [0, 1] 0 (by decide) (by decide) (by decide)).1

end PyFlyt
